import Mathlib

/-!
Shallow embedding of the MultiRaft consensus core (package multiraft): one engine
multiplexing many Raft groups over a single event loop, an asynchronous write
pipeline and a pending-call resolver.  Go maps are modelled as association lists,
nil pointers as Option, machine ints as Int, and every Go panic / log.Fatalf as a
`none` result.  Types that live outside the surveyed file (GroupElectionState,
GroupMembers, LogEntry, the write-task request/response records) are modelled from
the specification's data model and storage contract; each such definition says so
in its doc comment.
-/

namespace MultiRaft

/-- Association-list lookup; models a Go map read (without the zero-value default). -/
def alookup {α : Type} (l : List (Int × α)) (k : Int) : Option α :=
  match l with
  | [] => none
  | (k', v) :: rest => if k' = k then some v else alookup rest k

/-- Association-list insert-or-replace; models a Go map assignment. -/
def aupdate {α : Type} (l : List (Int × α)) (k : Int) (v : α) : List (Int × α) :=
  match l with
  | [] => [(k, v)]
  | (k', v') :: rest => if k' = k then (k, v) :: rest else (k', v') :: aupdate rest k v

/-- Membership test on a list of ids; models a Go map key-existence test. -/
def hasId (l : List Int) (k : Int) : Bool :=
  match l with
  | [] => false
  | x :: xs => if x = k then true else hasId xs k

/-- Add an id if absent (Go map insert keeps keys unique). -/
def insertId (l : List Int) (k : Int) : List Int :=
  if hasId l k then l else l ++ [k]

/-- Remove an id (Go map delete). -/
def removeId (l : List Int) (k : Int) : List Int :=
  l.filter (fun x => decide (x ≠ k))

/-- Insertion into an ascending-sorted list. -/
def insertSorted (x : Int) : List Int → List Int
  | [] => [x]
  | y :: ys => if x ≤ y then x :: y :: ys else y :: insertSorted x ys

/-- Ascending sort; models Go `sort.Ints`. -/
def sortAsc : List Int → List Int
  | [] => []
  | x :: xs => insertSorted x (sortAsc xs)

/-- `NodeID.isSet`: a NodeID (or any id) is valid iff non-zero. -/
def isSet (n : Int) : Bool := decide (n ≠ 0)

/-- Modelled from the spec (the GroupElectionState record is produced by code outside
the surveyed file): persistent election state `currentTerm, votedFor` per group;
`votedFor = 0` means unset. -/
structure GroupElectionState where
  currentTerm : Int
  votedFor : Int
deriving DecidableEq, Repr

/-- Modelled from the spec: a log entry is a Command or a ChangeMembership record. -/
inductive LogEntryType
  | command
  | changeMembership
deriving DecidableEq, Repr

/-- Modelled from the spec: `LogEntry = (term, index, type, payload)`. -/
structure LogEntry where
  term : Int
  index : Int
  type : LogEntryType
  payload : List Nat
deriving DecidableEq, Repr

/-- Modelled from the spec: ordered voting members plus ordered observers. -/
structure GroupMembers where
  members : List Int
  observers : List Int
deriving DecidableEq, Repr

/-- A pending RPC reply: gate on the given term / log index unless the axis is -1.
The reply handle (`rpc.Call`) is identified by `callId`; deliveries of the reply are
recorded by appending `callId` to a delivery log. -/
structure PendingCall where
  callId : Nat
  term : Int
  logIndex : Int
deriving DecidableEq, Repr

/-- Group roles. -/
inductive Role
  | observer
  | follower
  | candidate
  | leader
deriving DecidableEq, Repr

/-- Per-group state, mirroring struct `group` field for field.  Go nil pointers and
nil maps become `none`: `persistedElectionState` and `currentMembers` start nil, and
the `votes` map is nil until `becomeCandidate` allocates it (writing a nil Go map
panics, reading it yields the zero value). -/
structure Group where
  groupID : Int
  electionState : GroupElectionState
  committedMembers : GroupMembers
  lastLogIndex : Int
  lastLogTerm : Int
  persistedElectionState : Option GroupElectionState
  persistedCommittedMembers : Option GroupMembers
  persistedLastIndex : Int
  persistedLastTerm : Int
  role : Role
  leaderCommitIndex : Int
  commitIndex : Int
  electionDeadline : Int
  votes : Option (List (Int × Bool))
  currentMembers : Option GroupMembers
  nextIndex : List (Int × Int)
  matchIndex : List (Int × Int)
  pendingCalls : List PendingCall
  pendingEntries : List LogEntry
deriving DecidableEq, Repr

/-- `newGroup`: Go zero values everywhere except the explicitly set fields. -/
def newGroup (groupID : Int) (members : List Int) : Group :=
  { groupID := groupID
    electionState := { currentTerm := 0, votedFor := 0 }
    committedMembers := { members := members, observers := [] }
    lastLogIndex := 0
    lastLogTerm := 0
    persistedElectionState := none
    persistedCommittedMembers := none
    persistedLastIndex := 0
    persistedLastTerm := 0
    role := Role.follower
    leaderCommitIndex := 0
    commitIndex := 0
    electionDeadline := 0
    votes := none
    currentMembers := none
    nextIndex := []
    matchIndex := []
    pendingCalls := []
    pendingEntries := [] }

/-- Modelled from the spec: `GroupElectionState.Equal` (generated equality, outside
the surveyed file) — a non-nil receiver is never equal to a nil pointer, otherwise
the fields are compared. -/
def electionStateEqual (a : GroupElectionState) (b : Option GroupElectionState) : Bool :=
  match b with
  | none => false
  | some b' => decide (a = b')

/-- `group.findQuorumIndex`: collect `matchIndex` over the voting members (Go map
reads default to 0), sort ascending, and read `indices[len/2 + 1]`.  A nil
`currentMembers` dereference or an out-of-range index (a Go panic) is `none`. -/
def findQuorumIndex (g : Group) : Option Int :=
  match g.currentMembers with
  | none => none
  | some cm =>
    let indices := sortAsc (cm.members.map (fun n => (alookup g.matchIndex n).getD 0))
    let quorumPos := indices.length / 2 + 1
    indices.get? quorumPos

/-- The number of voting members whose `matchIndex` is at least `n` (used only to
state what a majority has agreed on). -/
def agreeCount (g : Group) (n : Int) : Nat :=
  match g.currentMembers with
  | none => 0
  | some cm => (cm.members.filter (fun m => decide (n ≤ (alookup g.matchIndex m).getD 0))).length

/-- Events pushed to the application (`sendEvent`); the bounded-channel overflow
panic is capacity behaviour outside this model. -/
inductive Event
  | leaderElection (groupID : Int) (nodeID : Int)
  | commandCommitted (payload : List Nat)
deriving DecidableEq, Repr

/-- The loop-owned engine state (struct `state`): the group table, the dirty set
(a map keyed by GroupID in Go, so a duplicate-free id list here) and the
reference-counted peer table. -/
structure EngineState where
  nodeID : Int
  groups : List (Int × Group)
  dirtyGroups : List Int
  nodes : List (Int × Nat)
deriving DecidableEq, Repr

/-- `newState`: empty tables. -/
def newState (nodeID : Int) : EngineState :=
  { nodeID := nodeID, groups := [], dirtyGroups := [], nodes := [] }

/-- Store a mutated group back under the key it was looked up at.  In Go the group
is a shared pointer, so mutation is visible in `s.groups` under its original key;
this function is that pointer write-back. -/
def updateGroup (s : EngineState) (gid : Int) (g : Group) : EngineState :=
  { s with groups := aupdate s.groups gid g }

/-- `updateDirtyStatus`: recompute the dirty flag exactly as the source does and
insert into / delete from the dirty set under key `g.groupID`. -/
def updateDirtyStatus (s : EngineState) (g : Group) : EngineState :=
  let dirty := !electionStateEqual g.electionState g.persistedElectionState
  let dirty := if g.pendingEntries.length > 0 then true else dirty
  if dirty then { s with dirtyGroups := insertId s.dirtyGroups g.groupID }
  else { s with dirtyGroups := removeId s.dirtyGroups g.groupID }

/-- The dirty condition of the spec, used only to state properties: in-memory
election state differs from the persisted mirror, or pending entries exist. -/
def dirtyCondition (g : Group) : Bool :=
  !electionStateEqual g.electionState g.persistedElectionState ||
    decide (g.pendingEntries ≠ [])

/-- `resolvePendingCall`: decide whether the call's persistence gates are met; when
they are, the source DELIVERS the reply right here (`call.call.Done <- call.call`),
so the delivered call ids are returned alongside the boolean. -/
def resolvePendingCall (g : Group) (c : PendingCall) : Bool × List Nat :=
  match g.persistedElectionState with
  | none => (false, [])
  | some pes =>
    if g.persistedLastIndex = -1 then (false, [])
    else if c.term ≠ -1 ∧ pes.currentTerm < c.term then (false, [])
    else if c.logIndex ≠ -1 ∧ g.persistedLastIndex < c.logIndex then (false, [])
    else (true, [c.callId])

/-- `addPendingCall`: resolve immediately if possible, otherwise queue at the back. -/
def addPendingCall (g : Group) (c : PendingCall) : Group × List Nat :=
  let r := resolvePendingCall g c
  if r.1 then (g, r.2)
  else ({ g with pendingCalls := g.pendingCalls ++ [c] }, r.2)

/-- The pending-call scan of `handleWriteResponse`: walk the list front to back;
every resolvable call is delivered by `resolvePendingCall` itself AND delivered a
second time by the handler (`call.call.Done <- call.call`), then removed. -/
def drainPendingCalls (g : Group) : Group × List Nat :=
  let r := g.pendingCalls.foldl
    (fun (acc : List PendingCall × List Nat) c =>
      let rc := resolvePendingCall g c
      if rc.1 then (acc.1, acc.2 ++ rc.2 ++ [c.callId])
      else (acc.1 ++ [c], acc.2))
    ([], [])
  ({ g with pendingCalls := r.1 }, r.2)

/-- `Storage.GetLogEntries(group, lo, hi)` modelled on a per-group log given as a
list: the entries with `lo ≤ index ≤ hi`, in log order. -/
def getLogEntries (log : List LogEntry) (lo hi : Int) : List LogEntry :=
  log.filter (fun e => decide (lo ≤ e.index) && decide (e.index ≤ hi))

/-- The per-entry switch inside `commitEntries`: a Command entry emits
`EventCommandCommitted`; any other type hits the default branch, `log.Fatalf`
(process abort), modelled as `none`. -/
def applyCommitted : List LogEntry → Option (List Event)
  | [] => some []
  | e :: rest =>
    match e.type with
    | LogEntryType.command =>
      match applyCommitted rest with
      | none => none
      | some evs => some (Event.commandCommitted e.payload :: evs)
    | _ => none

/-- `commitEntries`: ignore stale or unchanged commit positions, cap the target at
`persistedLastIndex`, stream `(commitIndex, target]` from Storage and apply each
entry.  The closing `broadcastEntries(g, nil)` emits RPCs only and is not state. -/
def commitEntries (log : List LogEntry) (g : Group) (leaderCommitIndex : Int) :
    Option (Group × List Event) :=
  if leaderCommitIndex = g.commitIndex then some (g, [])
  else if leaderCommitIndex < g.commitIndex then some (g, [])
  else
    let g := { g with leaderCommitIndex := leaderCommitIndex }
    let index := if g.persistedLastIndex < leaderCommitIndex then g.persistedLastIndex
                 else leaderCommitIndex
    match applyCommitted (getLogEntries log (g.commitIndex + 1) index) with
    | none => none
    | some evs => some ({ g with commitIndex := index }, evs)

/-- `RequestVoteRequest` wire message (header src/dst plus the Raft fields). -/
structure RequestVoteReq where
  srcNode : Int
  destNode : Int
  groupID : Int
  term : Int
  candidateID : Int
  lastLogIndex : Int
  lastLogTerm : Int
deriving DecidableEq, Repr

/-- `RequestVoteResponse` wire message. -/
structure RequestVoteResp where
  term : Int
  voteGranted : Bool
deriving DecidableEq, Repr

/-- `AppendEntriesRequest` wire message. -/
structure AppendEntriesReq where
  srcNode : Int
  destNode : Int
  groupID : Int
  term : Int
  leaderID : Int
  prevLogIndex : Int
  prevLogTerm : Int
  leaderCommit : Int
  entries : List LogEntry
deriving DecidableEq, Repr

/-- `AppendEntriesResponse` wire message. -/
structure AppendEntriesResp where
  term : Int
  success : Bool
deriving DecidableEq, Repr

/-- `requestVoteRequest`: the only handler that guards the group lookup — an
unknown group sets `call.Error` and completes the call at once (delivery of
`callId` with no response payload).  Otherwise: deny if `votedFor` is set to a
different candidate; else set `currentTerm := req.term` (no comparison!) and
grant.  The response is gated on persistence of the resulting term via
`addPendingCall`, and dirty status is recomputed. -/
def requestVoteRequest (s : EngineState) (req : RequestVoteReq) (callId : Nat) :
    EngineState × Option RequestVoteResp × List Nat :=
  match alookup s.groups req.groupID with
  | none => (s, none, [callId])
  | some g =>
    let denied : Bool :=
      isSet g.electionState.votedFor && decide (g.electionState.votedFor ≠ req.candidateID)
    let g :=
      if denied then g
      else { g with electionState := { g.electionState with currentTerm := req.term } }
    let resp : RequestVoteResp := { term := g.electionState.currentTerm, voteGranted := !denied }
    let r := addPendingCall g { callId := callId, term := g.electionState.currentTerm, logIndex := -1 }
    (updateDirtyStatus (updateGroup s req.groupID r.1) r.1, some resp, r.2)

/-- `hasMajority`: count the members whose vote is recorded true (reads of a nil Go
map yield false, hence the `getD`); a strict majority is required. -/
def hasMajority (votes : Option (List (Int × Bool))) (members : List Int) : Bool :=
  let voteCount := (members.filter (fun m => (alookup (votes.getD []) m).getD false)).length
  decide (members.length < voteCount * 2)

/-- `countVotes`: a Candidate with a majority becomes Leader and emits
`EventLeaderElection`.  For a Candidate, `g.currentMembers.Members` is
dereferenced; a nil `currentMembers` would be a Go panic (`none`). -/
def countVotes (s : EngineState) (g : Group) : Option (Group × List Event) :=
  if g.role = Role.candidate then
    match g.currentMembers with
    | none => none
    | some cm =>
      if hasMajority g.votes cm.members then
        some ({ g with role := Role.leader }, [Event.leaderElection g.groupID s.nodeID])
      else some (g, [])
  else some (g, [])

/-- `requestVoteResponse`: the group lookup is NOT guarded — an unknown group is a
nil dereference (`none`).  Stale responses (`resp.term < currentTerm`) are ignored;
a granted vote is written into the `votes` map (a Go panic if that map is still
nil, i.e. the group never became candidate); then votes are recounted and dirty
status recomputed. -/
def requestVoteResponse (s : EngineState) (req : RequestVoteReq) (resp : RequestVoteResp) :
    Option (EngineState × List Event) :=
  match alookup s.groups req.groupID with
  | none => none
  | some g =>
    if resp.term < g.electionState.currentTerm then some (s, [])
    else
      let g? : Option Group :=
        if resp.voteGranted then
          match g.votes with
          | none => none
          | some v => some { g with votes := some (aupdate v req.destNode resp.voteGranted) }
        else some g
      match g? with
      | none => none
      | some g =>
        match countVotes s g with
        | none => none
        | some (g, evs) => some (updateDirtyStatus (updateGroup s req.groupID g) g, evs)

/-- `appendEntriesRequest`: the group lookup is NOT guarded (unknown group ⇒ nil
dereference, `none`).  A request with `req.term < currentTerm` is answered
`{term = currentTerm, success = false}` immediately (its `callId` is delivered at
once) with no state change.  Otherwise the entries are appended to
`pendingEntries`, the log tail advanced to the final entry, dirty status
recomputed, the success response gated on persistence of the new last index, and
commit advanced with `req.leaderCommit`. -/
def appendEntriesRequest (log : List LogEntry) (s : EngineState) (req : AppendEntriesReq)
    (callId : Nat) : Option (EngineState × AppendEntriesResp × List Nat × List Event) :=
  match alookup s.groups req.groupID with
  | none => none
  | some g =>
    let respTerm := g.electionState.currentTerm
    if req.term < g.electionState.currentTerm then
      some (s, { term := respTerm, success := false }, [callId], [])
    else
      let g := { g with pendingEntries := g.pendingEntries ++ req.entries }
      let g :=
        match g.pendingEntries.getLast? with
        | some lastEntry => { g with lastLogIndex := lastEntry.index, lastLogTerm := lastEntry.term }
        | none => g
      let s := updateDirtyStatus (updateGroup s req.groupID g) g
      let r := addPendingCall g { callId := callId, term := -1, logIndex := g.lastLogIndex }
      match commitEntries log r.1 req.leaderCommit with
      | none => none
      | some (g, evs) =>
        some (updateGroup s req.groupID g, { term := respTerm, success := true }, r.2, evs)

/-- `appendEntriesResponse`: the group lookup is NOT guarded (unknown group ⇒ nil
dereference, `none`).  On success with entries, advance `nextIndex`/`matchIndex`
for the follower; on failure decrement `nextIndex`.  Then recompute the quorum
index (which may itself panic, see `findQuorumIndex`) and advance commit. -/
def appendEntriesResponse (log : List LogEntry) (s : EngineState) (req : AppendEntriesReq)
    (resp : AppendEntriesResp) : Option (EngineState × List Event) :=
  match alookup s.groups req.groupID with
  | none => none
  | some g =>
    let g :=
      if resp.success then
        match req.entries.getLast? with
        | some lastEntry =>
          { g with nextIndex := aupdate g.nextIndex req.destNode (lastEntry.index + 1)
                   matchIndex := aupdate g.matchIndex req.destNode lastEntry.index }
        | none => g
      else
        { g with nextIndex :=
            aupdate g.nextIndex req.destNode ((alookup g.nextIndex req.destNode).getD 0 - 1) }
    match findQuorumIndex g with
    | none => none
    | some qi =>
      match commitEntries log g qi with
      | none => none
      | some (g, evs) => some (updateGroup s req.groupID g, evs)

/-- Modelled from the spec (storage contract): one group's share of a
`WriteRequest` — an election-state copy when it must be persisted, and the drained
pending entries. -/
structure GroupWriteRequest where
  electionState : Option GroupElectionState
  entries : List LogEntry
deriving DecidableEq, Repr

/-- Modelled from the spec: the single `WriteRequest` covering every dirty group. -/
structure WriteRequest where
  groups : List (Int × GroupWriteRequest)
deriving DecidableEq, Repr

/-- Modelled from the spec (storage contract): what the write task reports durable
for one group; `lastIndex = -1` means no new entries were in the batch. -/
structure GroupPersistInfo where
  electionState : Option GroupElectionState
  lastIndex : Int
  lastTerm : Int
  entries : List LogEntry
deriving DecidableEq, Repr

/-- Modelled from the spec: a write-task completion covering the written groups. -/
structure WriteResponse where
  groups : List (Int × GroupPersistInfo)
deriving DecidableEq, Repr

/-- The event loop (`start`) offers the write-ready handshake iff the dirty set is
non-empty (`if len(s.dirtyGroups) > 0`). -/
def writeReadySelectable (s : EngineState) : Bool :=
  decide (0 < s.dirtyGroups.length)

/-- The body of `handleWriteReady`, iterating the dirty set: per dirty group, copy
`electionState` if it differs from the persisted mirror, take the pending entries
if non-empty (draining them from the group).  A dirty id without an installed
group cannot occur in Go (the dirty map holds the group pointer) and is skipped. -/
def writeReadyLoop (s : EngineState) : List Int → EngineState × List (Int × GroupWriteRequest)
  | [] => (s, [])
  | gid :: rest =>
    match alookup s.groups gid with
    | none => writeReadyLoop s rest
    | some g =>
      let req : GroupWriteRequest :=
        { electionState :=
            if electionStateEqual g.electionState g.persistedElectionState then none
            else some g.electionState
          entries := if g.pendingEntries.isEmpty then [] else g.pendingEntries }
      let g2 := if g.pendingEntries.isEmpty then g else { g with pendingEntries := [] }
      let r := writeReadyLoop (updateGroup s gid g2) rest
      (r.1, (gid, req) :: r.2)

/-- `handleWriteReady`: package exactly one `WriteRequest` covering every dirty
group (the dirty set itself is only cleared later, by `updateDirtyStatus` on write
completion). -/
def handleWriteReady (s : EngineState) : EngineState × WriteRequest :=
  let r := writeReadyLoop s s.dirtyGroups
  (r.1, { groups := r.2 })

/-- One group of `handleWriteResponse`: install the durable election state and log
position, advance commit with the recorded `leaderCommitIndex`, deliver resolvable
pending calls (each one twice — once inside `resolvePendingCall`, once by the
handler), and recompute dirty status.  The group lookup is unguarded in Go
(`none` = nil dereference); `broadcastEntries` emits RPCs only. -/
def handleWriteResponseGroup (log : List LogEntry) (s : EngineState)
    (e : Int × GroupPersistInfo) : Option (EngineState × List Event × List Nat) :=
  match alookup s.groups e.1 with
  | none => none
  | some g =>
    let g :=
      match e.2.electionState with
      | some pes => { g with persistedElectionState := some pes }
      | none => g
    let g :=
      if e.2.lastIndex ≠ -1 then
        { g with persistedLastIndex := e.2.lastIndex, persistedLastTerm := e.2.lastTerm }
      else g
    match commitEntries log g g.leaderCommitIndex with
    | none => none
    | some (g, evs) =>
      let r := drainPendingCalls g
      some (updateDirtyStatus (updateGroup s e.1 r.1) r.1, evs, r.2)

/-- `handleWriteResponse`: process every group reported by the write task. -/
def handleWriteResponse (log : List LogEntry) (s : EngineState) (resp : WriteResponse) :
    Option (EngineState × List Event × List Nat) :=
  resp.groups.foldl
    (fun acc e =>
      match acc with
      | none => none
      | some (s, evs, ds) =>
        match handleWriteResponseGroup log s e with
        | none => none
        | some (s2, evs2, ds2) => some (s2, evs ++ evs2, ds ++ ds2))
    (some (s, [], []))

/-- `Transport.Connect` glue inside `createGroup`: bump the refcount of an already
connected peer, otherwise connect (modelled as always succeeding; dial failure is
external-transport behaviour) with refcount 1. -/
def connectNodes (s : EngineState) : List Int → EngineState
  | [] => s
  | m :: ms =>
    match alookup s.nodes m with
    | some rc => connectNodes { s with nodes := aupdate s.nodes m (rc + 1) } ms
    | none => connectNodes { s with nodes := s.nodes ++ [(m, 1)] } ms

/-- `createGroup`: reject a duplicate id, connect the members, randomize the
election deadline (`now + rnd` with `rnd` drawn from the configured window) and
install the group.  Note: the dirty set is NOT touched. -/
def createGroup (now rnd : Int) (s : EngineState) (g : Group) : EngineState × Bool :=
  if (alookup s.groups g.groupID).isSome then (s, false)
  else
    let s := connectNodes s g.committedMembers.members
    let g := { g with electionDeadline := now + rnd }
    ({ s with groups := s.groups ++ [(g.groupID, g)] }, true)

/-- Result of `addLogEntry`: appended, or the "forward to leader" error. -/
inductive AddLogResult
  | ok
  | notLeader
deriving DecidableEq, Repr

/-- `addLogEntry`: the group lookup is NOT guarded (unknown group ⇒ nil
dereference, `none`).  Non-leaders get an error; a leader increments
`lastLogIndex`, appends the entry to `pendingEntries` and recomputes dirty
status. -/
def addLogEntry (s : EngineState) (gid : Int) (t : LogEntryType) (payload : List Nat) :
    Option (EngineState × AddLogResult) :=
  match alookup s.groups gid with
  | none => none
  | some g =>
    if g.role ≠ Role.leader then some (s, AddLogResult.notLeader)
    else
      let g := { g with lastLogIndex := g.lastLogIndex + 1 }
      let entry : LogEntry :=
        { term := g.electionState.currentTerm, index := g.lastLogIndex, type := t,
          payload := payload }
      let g := { g with pendingEntries := g.pendingEntries ++ [entry] }
      some (updateDirtyStatus (updateGroup s gid g) g, AddLogResult.ok)

/-- `submitCommand`: a Command entry with the given payload. -/
def submitCommand (s : EngineState) (gid : Int) (command : List Nat) :
    Option (EngineState × AddLogResult) :=
  addLogEntry s gid LogEntryType.command command

/-- `changeGroupMembership`: a ChangeMembership entry (the source passes a nil
payload to `addLogEntry`). -/
def changeGroupMembership (s : EngineState) (gid : Int) :
    Option (EngineState × AddLogResult) :=
  addLogEntry s gid LogEntryType.changeMembership []

/-- `becomeCandidate`: transitioning from Leader is forbidden — the source panics
("cannot transition from leader to candidate"), modelled as `none`.  Otherwise:
role Candidate, `currentTerm += 1`, vote for self, fresh votes map, snapshot
`currentMembers` from `committedMembers`, reset the election deadline to
`now + rnd`, and send a RequestVote to every member — each send dereferences the
peer entry, a Go panic when a member is not connected. -/
def becomeCandidate (now rnd : Int) (s : EngineState) (g : Group) :
    Option (EngineState × List Event) :=
  if g.role = Role.leader then none
  else
    let g := { g with
      role := Role.candidate
      electionState := { currentTerm := g.electionState.currentTerm + 1, votedFor := s.nodeID }
      votes := some []
      currentMembers := some g.committedMembers
      electionDeadline := now + rnd }
    if g.committedMembers.members.all (fun m => (alookup s.nodes m).isSome) then
      some (updateDirtyStatus (updateGroup s g.groupID g) g, [])
    else none

/-- `handleElectionTimers`: every group whose deadline has passed
(`!now.Before(deadline)`) becomes candidate.  There is NO role check here.  The
same random draw is reused across groups in one fire (the source draws per group;
any draw in the window is possible, so this restricts, never adds, behaviour). -/
def handleElectionTimers (now rnd : Int) (s : EngineState) :
    Option (EngineState × List Event) :=
  (s.groups.map Prod.fst).foldl
    (fun acc gid =>
      match acc with
      | none => none
      | some (s, evs) =>
        match alookup s.groups gid with
        | none => some (s, evs)
        | some g =>
          if ¬ now < g.electionDeadline then
            match becomeCandidate now rnd s g with
            | none => none
            | some (s2, evs2) => some (s2, evs ++ evs2)
          else some (s, evs))
    (some (s, []))

/-- The Clock configuration field: nil, the real wall clock, or a manual clock. -/
inductive ClockModel
  | real
  | manual (id : Int)
deriving DecidableEq, Repr

/-- `Config`: external collaborators are reduced to presence flags; the timeouts
are `time.Duration`, i.e. signed 64-bit integers. -/
structure MRConfig where
  hasStorage : Bool
  hasTransport : Bool
  clock : Option ClockModel
  electionTimeoutMin : Int
  electionTimeoutMax : Int
  strict : Bool
deriving DecidableEq, Repr

/-- `Config.Validate`: Transport required, both timeouts NON-ZERO (not positive!),
and `min ≤ max`.  Returns the error message, `none` on success. -/
def configValidate (c : MRConfig) : Option String :=
  if c.hasTransport = false then some "Transport is required"
  else if c.electionTimeoutMin = 0 ∨ c.electionTimeoutMax = 0 then
    some "ElectionTimeoutMin,Max must be non-zero"
  else if c.electionTimeoutMax < c.electionTimeoutMin then
    some "ElectionTimeoutMin must be <= ElectionTimeoutMax"
  else none

/-- The constructed `MultiRaft` handle (the channels it allocates are capacity
behaviour outside the model). -/
structure MultiRaftHandle where
  nodeID : Int
  clock : ClockModel
  electionTimeoutMin : Int
  electionTimeoutMax : Int
  strict : Bool
deriving DecidableEq, Repr

/-- `NewMultiRaft`: reject an unset NodeID, validate the config, default a nil
Clock to the real clock, then register with the Transport — `listenOk` stands for
the external `Transport.Listen` outcome, a further failure source. -/
def newMultiRaft (nodeID : Int) (c : MRConfig) (listenOk : Bool) :
    Option MultiRaftHandle :=
  if isSet nodeID = false then none
  else
    match configValidate c with
    | some _ => none
    | none =>
      let clock := c.clock.getD ClockModel.real
      if listenOk then
        some { nodeID := nodeID, clock := clock,
               electionTimeoutMin := c.electionTimeoutMin,
               electionTimeoutMax := c.electionTimeoutMax, strict := c.strict }
      else none

/-- One alternative of the event loop's multi-way select. -/
inductive LoopInput
  | createGroupOp (g : Group)
  | submitCommandOp (gid : Int) (command : List Nat)
  | changeMembershipOp (gid : Int)
  | voteRequest (req : RequestVoteReq) (callId : Nat)
  | appendRequest (req : AppendEntriesReq) (callId : Nat)
  | voteResponse (req : RequestVoteReq) (resp : RequestVoteResp)
  | appendResponse (req : AppendEntriesReq) (resp : AppendEntriesResp)
  | writeReady
  | writeResp (r : WriteResponse)
  | timerFire (now : Int)
deriving DecidableEq, Repr

/-- One iteration of the event loop (`start`), dispatching an input to its
handler.  `now` is the clock reading of the iteration and `rnd` the pending random
draw for any deadline reset; `none` is a Go panic / log.Fatalf. -/
def stepLoop (log : List LogEntry) (now rnd : Int) (s : EngineState) :
    LoopInput → Option EngineState
  | LoopInput.createGroupOp g => some (createGroup now rnd s g).1
  | LoopInput.submitCommandOp gid command => (submitCommand s gid command).map (·.1)
  | LoopInput.changeMembershipOp gid => (changeGroupMembership s gid).map (·.1)
  | LoopInput.voteRequest req callId => some (requestVoteRequest s req callId).1
  | LoopInput.appendRequest req callId => (appendEntriesRequest log s req callId).map (·.1)
  | LoopInput.voteResponse req resp => (requestVoteResponse s req resp).map (·.1)
  | LoopInput.appendResponse req resp => (appendEntriesResponse log s req resp).map (·.1)
  | LoopInput.writeReady => some (handleWriteReady s).1
  | LoopInput.writeResp r => (handleWriteResponse log s r).map (·.1)
  | LoopInput.timerFire tnow => (handleElectionTimers tnow rnd s).map (·.1)

/-- Side conditions under which the loop can actually take an input: the random
draw lies in the configured half-open window, and the write-ready handshake is
only offered while the dirty set is non-empty. -/
def validStep (timeoutMin timeoutMax : Int) (s : EngineState) (inp : LoopInput)
    (rnd : Int) : Prop :=
  timeoutMin ≤ rnd ∧ rnd < timeoutMax ∧
    (inp = LoopInput.writeReady → writeReadySelectable s = true)

/-- Engine states reachable from a fresh engine by event-loop iterations. -/
inductive Reachable (timeoutMin timeoutMax : Int) (log : List LogEntry) :
    EngineState → Prop
  | init (nodeID : Int) : isSet nodeID = true →
      Reachable timeoutMin timeoutMax log (newState nodeID)
  | step (s s' : EngineState) (inp : LoopInput) (now rnd : Int) :
      Reachable timeoutMin timeoutMax log s →
      validStep timeoutMin timeoutMax s inp rnd →
      stepLoop log now rnd s inp = some s' →
      Reachable timeoutMin timeoutMax log s'

/-- A single-member leader group (quorum recomputation input). -/
def c1singleGroup : Group :=
  { newGroup 1 [1] with
    role := Role.leader
    currentMembers := some { members := [1], observers := [] } }

/-- A three-member leader group where only the leader itself has matched index 5. -/
def c1tripleGroup : Group :=
  { newGroup 1 [1, 2, 3] with
    role := Role.leader
    currentMembers := some { members := [1, 2, 3], observers := [] }
    matchIndex := [(1, 5)] }

/-- Engine after creating single-member group 1 on node 1. -/
def c2s0 : EngineState := (createGroup 0 1 (newState 1) (newGroup 1 [1])).1

/-- A vote request from candidate node 2 for group 1 at term 1. -/
def c2req : RequestVoteReq :=
  { srcNode := 2, destNode := 1, groupID := 1, term := 1, candidateID := 2,
    lastLogIndex := 0, lastLogTerm := 0 }

/-- Handling that vote request as call 7 (queued: nothing persisted yet). -/
def c2r : EngineState × Option RequestVoteResp × List Nat :=
  requestVoteRequest c2s0 c2req 7

/-- The write completion persisting exactly the election state the handler wrote. -/
def c2wresp : WriteResponse :=
  { groups := [(1, { electionState := some { currentTerm := 1, votedFor := 0 },
                     lastIndex := -1, lastTerm := 0, entries := [] })] }

/-- A follower group settled at term 5 (nothing dirty). -/
def c3group : Group :=
  { newGroup 1 [1] with
    electionState := { currentTerm := 5, votedFor := 0 }
    persistedElectionState := some { currentTerm := 5, votedFor := 0 } }

def c3state : EngineState :=
  { nodeID := 1, groups := [(1, c3group)], dirtyGroups := [], nodes := [(1, 1)] }

/-- A STALE vote request: term 3 against a group already at term 5. -/
def c3req : RequestVoteReq :=
  { srcNode := 2, destNode := 1, groupID := 1, term := 3, candidateID := 2,
    lastLogIndex := 0, lastLogTerm := 0 }

/-- Single-node run, step 1: create group 1 with members = [1] at time 0 (draw 1). -/
def c4s1 : EngineState :=
  (stepLoop [] 0 1 (newState 1) (LoopInput.createGroupOp (newGroup 1 [1]))).getD (newState 1)

/-- Step 2: the election timer fires at time 1; the group becomes candidate. -/
def c4s2 : EngineState := (stepLoop [] 1 1 c4s1 (LoopInput.timerFire 1)).getD c4s1

/-- The vote request the candidate sends to itself in step 2. -/
def c4req : RequestVoteReq :=
  { srcNode := 1, destNode := 1, groupID := 1, term := 1, candidateID := 1,
    lastLogIndex := 0, lastLogTerm := 0 }

/-- Step 3: the (self-)vote response arrives granted; the group becomes leader.
This response is exactly what `requestVoteRequest` itself produces for `c4req`. -/
def c4s3 : EngineState :=
  (stepLoop [] 2 1 c4s2
    (LoopInput.voteResponse c4req { term := 1, voteGranted := true })).getD c4s2

/-- A follower whose log is durable through index 2 but applied only through 0. -/
def c5group : Group := { newGroup 1 [1] with persistedLastIndex := 2 }

/-- A log whose entry 2 is a ChangeMembership entry. -/
def c5log : List LogEntry :=
  [ { term := 1, index := 1, type := LogEntryType.command, payload := [120] },
    { term := 1, index := 2, type := LogEntryType.changeMembership, payload := [] } ]

/-- The same log with Command entries only. -/
def c5cmdLog : List LogEntry :=
  [ { term := 1, index := 1, type := LogEntryType.command, payload := [120] },
    { term := 1, index := 2, type := LogEntryType.command, payload := [121] } ]

/-- Engine right after `create_group(1, [1])` (for the dirty-set equivalence). -/
def c6state : EngineState := (createGroup 0 1 (newState 1) (newGroup 1 [1])).1

/-- A group for the amended dirty-set theorem's witness. -/
def c6group : Group := newGroup 1 [1]

def c6vState : EngineState :=
  { nodeID := 1, groups := [(1, c6group)], dirtyGroups := [], nodes := [(1, 1)] }

def c6vReq : RequestVoteReq :=
  { srcNode := 2, destNode := 1, groupID := 1, term := 4, candidateID := 2,
    lastLogIndex := 0, lastLogTerm := 0 }

/-- The group `requestVoteRequest` leaves behind in the witness scenario. -/
def c6vGroupAfter : Group :=
  { newGroup 1 [1] with
    electionState := { currentTerm := 4, votedFor := 0 }
    pendingCalls := [{ callId := 3, term := 4, logIndex := -1 }] }

/-- A leader group for the addLogEntry part of the amended dirty-set witness. -/
def c6lGroup : Group :=
  { newGroup 1 [1] with
    role := Role.leader
    electionState := { currentTerm := 2, votedFor := 1 }
    persistedElectionState := some { currentTerm := 2, votedFor := 1 }
    currentMembers := some { members := [1], observers := [] } }

def c6lState : EngineState :=
  { nodeID := 1, groups := [(1, c6lGroup)], dirtyGroups := [], nodes := [(1, 1)] }

def c6lGroupAfter : Group :=
  { c6lGroup with
    lastLogIndex := 1
    pendingEntries := [{ term := 2, index := 1, type := LogEntryType.command, payload := [9] }] }

def c6lStateAfter : EngineState :=
  (addLogEntry c6lState 1 LogEntryType.command [9]).map (·.1)
    |>.getD c6lState

/-- A candidate group awaiting its own vote (vote-response part of the C6 witness). -/
def c6rGroup : Group :=
  { newGroup 1 [1] with
    role := Role.candidate
    electionState := { currentTerm := 1, votedFor := 1 }
    votes := some []
    currentMembers := some { members := [1], observers := [] } }

def c6rState : EngineState :=
  { nodeID := 1, groups := [(1, c6rGroup)], dirtyGroups := [1], nodes := [(1, 1)] }

def c6rReq : RequestVoteReq :=
  { srcNode := 1, destNode := 1, groupID := 1, term := 1, candidateID := 1,
    lastLogIndex := 0, lastLogTerm := 0 }

def c6rResp : RequestVoteResp := { term := 1, voteGranted := true }

def c6rStateAfter : EngineState :=
  ((requestVoteResponse c6rState c6rReq c6rResp).map (·.1)).getD c6rState

def c6rGroupAfter : Group :=
  { c6rGroup with votes := some [(1, true)], role := Role.leader }

/-- A follower receiving one AppendEntries entry (C6 witness, append part). -/
def c6aGroup : Group := newGroup 1 [1]

def c6aState : EngineState :=
  { nodeID := 1, groups := [(1, c6aGroup)], dirtyGroups := [], nodes := [(1, 1)] }

def c6aEntry : LogEntry :=
  { term := 0, index := 1, type := LogEntryType.command, payload := [3] }

def c6aReq : AppendEntriesReq :=
  { srcNode := 2, destNode := 1, groupID := 1, term := 0, leaderID := 2,
    prevLogIndex := 0, prevLogTerm := 0, leaderCommit := 0, entries := [c6aEntry] }

def c6aStateAfter : EngineState :=
  ((appendEntriesRequest [] c6aState c6aReq 4).map (·.1)).getD c6aState

def c6aGroupAfter : Group :=
  { c6aGroup with
    pendingEntries := [c6aEntry]
    lastLogIndex := 1
    lastLogTerm := 0
    pendingCalls := [{ callId := 4, term := -1, logIndex := 1 }] }

/-- Outcome of `becomeCandidate` on the fresh C6 group (become-candidate part). -/
def c6bStateAfter : EngineState :=
  ((becomeCandidate 1 1 c6vState c6group).map (·.1)).getD c6vState

def c6bGroupAfter : Group :=
  { c6group with
    role := Role.candidate
    electionState := { currentTerm := 1, votedFor := 1 }
    votes := some []
    currentMembers := some { members := [1], observers := [] }
    electionDeadline := 2 }

/-- A group with a queued pending call awaiting persistence (write-response part). -/
def c6wGroup : Group :=
  { newGroup 1 [1] with
    electionState := { currentTerm := 1, votedFor := 0 }
    pendingCalls := [{ callId := 8, term := 1, logIndex := -1 }] }

def c6wState : EngineState :=
  { nodeID := 1, groups := [(1, c6wGroup)], dirtyGroups := [1], nodes := [(1, 1)] }

def c6wInfo : Int × GroupPersistInfo :=
  (1, { electionState := some { currentTerm := 1, votedFor := 0 },
        lastIndex := -1, lastTerm := 0, entries := [] })

def c6wStateAfter : EngineState :=
  ((handleWriteResponseGroup [] c6wState c6wInfo).map (·.1)).getD c6wState

def c6wGroupAfter : Group :=
  { c6wGroup with
    persistedElectionState := some { currentTerm := 1, votedFor := 0 }
    pendingCalls := [] }

/-- A leader at term 5, fully persisted. -/
def c7group : Group :=
  { newGroup 1 [1] with
    role := Role.leader
    electionState := { currentTerm := 5, votedFor := 1 }
    persistedElectionState := some { currentTerm := 5, votedFor := 1 }
    currentMembers := some { members := [1], observers := [] } }

def c7state : EngineState :=
  { nodeID := 1, groups := [(1, c7group)], dirtyGroups := [], nodes := [(1, 1)] }

/-- A stale AppendEntries request at term 3 against the term-5 leader. -/
def c7req : AppendEntriesReq :=
  { srcNode := 2, destNode := 1, groupID := 1, term := 3, leaderID := 2,
    prevLogIndex := 0, prevLogTerm := 0, leaderCommit := 0, entries := [] }

/-- A dirty group with one pending entry and an unpersisted election state. -/
def c8group : Group :=
  { newGroup 1 [1] with
    electionState := { currentTerm := 2, votedFor := 1 }
    lastLogIndex := 1
    lastLogTerm := 2
    pendingEntries := [{ term := 2, index := 1, type := LogEntryType.command, payload := [7] }] }

def c8state : EngineState :=
  { nodeID := 1, groups := [(1, c8group)], dirtyGroups := [1], nodes := [(1, 1)] }

/-- A config with NEGATIVE timeouts: not positive, yet accepted by validation. -/
def c9badConfig : MRConfig :=
  { hasStorage := true, hasTransport := true, clock := none,
    electionTimeoutMin := -1, electionTimeoutMax := -1, strict := false }

/-- The `GroupWriteRequest` packaged for a group, as `handleWriteReady` builds it. -/
def packagedRequest (g : Group) : GroupWriteRequest :=
  { electionState :=
      if electionStateEqual g.electionState g.persistedElectionState then none
      else some g.electionState
    entries := g.pendingEntries }

/-- A config that passes validation, with a nil clock. -/
def c9goodConfig : MRConfig :=
  { hasStorage := true, hasTransport := true, clock := none,
    electionTimeoutMin := 2, electionTimeoutMax := 3, strict := false }

/-- The handle `NewMultiRaft` builds from `c9goodConfig` for node 1. -/
def c9handle : MultiRaftHandle :=
  { nodeID := 1, clock := ClockModel.real, electionTimeoutMin := 2,
    electionTimeoutMax := 3, strict := false }

/-- An AppendEntries request naming the nonexistent group 42. -/
def c10aeReq : AppendEntriesReq :=
  { srcNode := 2, destNode := 1, groupID := 42, term := 1, leaderID := 2,
    prevLogIndex := 0, prevLogTerm := 0, leaderCommit := 0, entries := [] }

/-- A vote request/response pair naming the nonexistent group 42. -/
def c10rvReq : RequestVoteReq :=
  { srcNode := 2, destNode := 1, groupID := 42, term := 1, candidateID := 2,
    lastLogIndex := 0, lastLogTerm := 0 }

theorem alookup_aupdate_self {α : Type} (l : List (Int × α)) (k : Int) (v : α) :
    alookup (aupdate l k v) k = some v := by
  induction l with
  | nil => simp [aupdate, alookup]
  | cons p rest ih =>
    obtain ⟨k', v'⟩ := p
    by_cases h : k' = k
    · simp [aupdate, h, alookup]
    · simp [aupdate, h, alookup, ih]

theorem alookup_aupdate_ne {α : Type} (l : List (Int × α)) (k k' : Int) (v : α)
    (h : k' ≠ k) : alookup (aupdate l k v) k' = alookup l k' := by
  induction l with
  | nil => simp [aupdate, alookup, h, Ne.symm h]
  | cons p rest ih =>
    obtain ⟨k0, v0⟩ := p
    by_cases h0 : k0 = k
    · subst h0
      simp [aupdate, alookup, Ne.symm h]
    · simp [aupdate, h0, alookup, ih]

theorem hasId_append_self (l : List Int) (k : Int) : hasId (l ++ [k]) k = true := by
  induction l with
  | nil => simp [hasId]
  | cons x xs ih =>
    by_cases h : x = k <;> simp [hasId, h, ih]

theorem hasId_insertId_self (l : List Int) (k : Int) : hasId (insertId l k) k = true := by
  unfold insertId
  by_cases h : hasId l k = true
  · simp [h]
  · simp [h, hasId_append_self]

theorem hasId_removeId_self (l : List Int) (k : Int) : hasId (removeId l k) k = false := by
  induction l with
  | nil => simp [removeId, hasId]
  | cons x xs ih =>
    by_cases h : x = k
    · simpa [removeId, h] using ih
    · simpa [removeId, hasId, h] using ih

/-- After `updateDirtyStatus s g`, membership of `g.groupID` in the dirty set is
exactly the dirty condition, and the group table is untouched. -/
theorem updateDirtyStatus_hasId (s : EngineState) (g : Group) :
    hasId (updateDirtyStatus s g).dirtyGroups g.groupID = dirtyCondition g ∧
    (updateDirtyStatus s g).groups = s.groups := by
  unfold updateDirtyStatus dirtyCondition
  rcases hpe : g.pendingEntries with _ | ⟨e, rest⟩
  · by_cases he : electionStateEqual g.electionState g.persistedElectionState
    · simp [hpe, he, hasId_removeId_self]
    · simp [hpe, he, hasId_insertId_self]
  · simp [hpe, hasId_insertId_self]

/-- Any handler ending in `updateDirtyStatus (updateGroup s k g) g` leaves the
group it stored satisfying the dirty-set equivalence. -/
theorem post_mutate_dirty (s : EngineState) (k : Int) (g : Group) (g' : Group)
    (h : alookup (updateDirtyStatus (updateGroup s k g) g).groups k = some g') :
    hasId (updateDirtyStatus (updateGroup s k g) g).dirtyGroups g'.groupID =
      dirtyCondition g' := by
  rw [(updateDirtyStatus_hasId (updateGroup s k g) g).2] at h
  unfold updateGroup at h
  rw [alookup_aupdate_self] at h
  injection h with h
  subst h
  exact (updateDirtyStatus_hasId (updateGroup s k g) g).1

/-- C1: FALSE of the code.  `findQuorumIndex` reads `indices[len/2 + 1]` of the
ascending-sorted match indices: for the single-member group this is `indices[1]`,
out of bounds (a Go panic, `none` here) — not the majority-meeting position
`indices[(len-1)/2] = indices[0]`; and for the three-member group it returns the
MAXIMUM match index 5, which no strict majority has reached (only 1 of 3 members
is at index ≥ 5). -/
theorem findQuorumIndex_wrong_position :
    findQuorumIndex c1singleGroup = none ∧
    findQuorumIndex c1tripleGroup = some 5 ∧
    2 * agreeCount c1tripleGroup 5 ≤ 3 := by decide

/-- C2: FALSE of the code.  Vote-request call 7 is registered while nothing is
persisted, so it is queued (no delivery); the write completion that persists the
election state then completes it TWICE — once by the send inside
`resolvePendingCall` and once by the send in `handleWriteResponse` — so the reply
handle sees the delivery log `[7, 7]`, not a single completion. -/
theorem pending_call_delivered_twice :
    c2r.2.2 = [] ∧
    (alookup c2r.1.groups 1).map Group.pendingCalls =
      some [{ callId := 7, term := 1, logIndex := -1 }] ∧
    (handleWriteResponse [] c2r.1 c2wresp).map (fun r => r.2.2) = some [7, 7] := by decide

/-- C3: FALSE of the code.  A group settled at `current_term = 5` receives a STALE
vote request at term 3; `requestVoteRequest` grants (voted_for unset) and assigns
`current_term := req.term` with no comparison, so the term DECREASES from 5 to 3
in this event-loop step. -/
theorem current_term_decreases_on_stale_vote_request :
    (alookup c3state.groups 1).map (fun g => g.electionState.currentTerm) = some 5 ∧
    (alookup (requestVoteRequest c3state c3req 0).1.groups 1).map
        (fun g => g.electionState.currentTerm) = some 3 ∧
    (3 : Int) < 5 := by decide

/-- C5: FALSE of the code.  Advancing the commit position over a log whose entry 2
is a ChangeMembership entry hits the default branch of the entry-type switch and
`log.Fatalf` aborts (`none`); with Command entries only, the same advancement
completes and emits the payloads in order. -/
theorem commit_fatal_on_change_membership :
    commitEntries c5log c5group 2 = none ∧
    commitEntries c5cmdLog c5group 2 =
      some ({ c5group with leaderCommitIndex := 2, commitIndex := 2 },
            [Event.commandCommitted [120], Event.commandCommitted [121]]) := by decide

/-- C6 counterexample: right after `create_group(1, [1])` the installed group
satisfies the dirty condition (its fresh election state differs from the unset
persisted mirror) yet is NOT in the dirty set — `createGroup` never calls
`updateDirtyStatus`. -/
theorem create_group_leaves_fresh_group_clean :
    (alookup c6state.groups 1).map dirtyCondition = some true ∧
    hasId c6state.dirtyGroups 1 = false := by decide

/-- C9 counterexample: `Config.Validate` only rejects ZERO timeouts, so a config
with both election timeouts equal to -1 (not > 0) passes validation and
`NewMultiRaft` succeeds, contradicting "fails ... when either election timeout is
not > 0". -/
theorem negative_timeouts_accepted :
    (newMultiRaft 1 c9badConfig true).isSome = true ∧
    ¬ (0 : Int) < c9badConfig.electionTimeoutMin ∧
    ¬ (0 : Int) < c9badConfig.electionTimeoutMax := by decide

/-- C4: FALSE of the code.  A reachable state (create the single-member group 1,
let its election timer fire, receive the granted self-vote and win the election)
holds group 1 in the Leader role; leaders never refresh their election deadline
and `handleElectionTimers` has no role check, so the next timer fire invokes
`becomeCandidate` on the Leader and hits the "cannot transition from leader to
candidate" panic branch (`none`). -/
theorem election_timer_fires_become_candidate_on_leader :
    Reachable 1 2 [] c4s3 ∧
    (alookup c4s3.groups 1).map Group.role = some Role.leader ∧
    stepLoop [] 5 1 c4s3 (LoopInput.timerFire 5) = none := by
  refine ⟨?_, by decide, by decide⟩
  have h0 : Reachable 1 2 [] (newState 1) := Reachable.init 1 (by decide)
  have h1 : Reachable 1 2 [] c4s1 :=
    Reachable.step (newState 1) c4s1 (LoopInput.createGroupOp (newGroup 1 [1])) 0 1 h0
      ⟨by decide, by decide, by decide⟩ (by decide)
  have h2 : Reachable 1 2 [] c4s2 :=
    Reachable.step c4s1 c4s2 (LoopInput.timerFire 1) 1 1 h1
      ⟨by decide, by decide, by decide⟩ (by decide)
  exact
    Reachable.step c4s2 c4s3
      (LoopInput.voteResponse c4req { term := 1, voteGranted := true }) 2 1 h2
      ⟨by decide, by decide, by decide⟩ (by decide)

/-- C7: for every AppendEntries request against an existing group with
`req.term < current_term`, the handler returns exactly `{term = current_term,
success = false}`, delivers the reply at once, emits no events and returns the
engine state UNCHANGED — so pending_entries, last_log_index, last_log_term,
election_state, commit_index and the dirty set are all as before. -/
theorem appendEntries_stale_term_rejected (log : List LogEntry) (s : EngineState)
    (req : AppendEntriesReq) (callId : Nat) (g : Group)
    (hg : alookup s.groups req.groupID = some g)
    (ht : req.term < g.electionState.currentTerm) :
    appendEntriesRequest log s req callId =
      some (s, { term := g.electionState.currentTerm, success := false }, [callId], []) := by
  unfold appendEntriesRequest
  rw [hg]
  simp [ht]

/-- Witness for C7 at the term-5 leader receiving a term-3 AppendEntries. -/
theorem appendEntries_stale_term_rejected_witness :
    appendEntriesRequest [] c7state c7req 9 =
      some (c7state, { term := 5, success := false }, [9], []) :=
  appendEntries_stale_term_rejected [] c7state c7req 9 c7group (by decide) (by decide)

/-- C10: for any GroupID absent from the group table, submit_command and
change_group_membership (through `addLogEntry`), the AppendEntries request
handler, the vote-response handler and the AppendEntries response handler all
dereference the nil lookup result and crash (`none`), while the vote-request
handler alone guards the lookup and completes the call with an "unknown group"
error (reply delivered, no panic, state unchanged). -/
theorem unknown_group_crashes (log : List LogEntry) (s : EngineState) (gid : Int)
    (hnone : alookup s.groups gid = none) (command : List Nat) (callId : Nat)
    (aereq : AppendEntriesReq) (rvreq : RequestVoteReq)
    (aeresp : AppendEntriesResp) (rvresp : RequestVoteResp)
    (hae : aereq.groupID = gid) (hrv : rvreq.groupID = gid) :
    submitCommand s gid command = none ∧
    changeGroupMembership s gid = none ∧
    appendEntriesRequest log s aereq callId = none ∧
    requestVoteResponse s rvreq rvresp = none ∧
    appendEntriesResponse log s aereq aeresp = none ∧
    requestVoteRequest s rvreq callId = (s, none, [callId]) := by
  refine ⟨?_, ?_, ?_, ?_, ?_, ?_⟩ <;>
    simp [submitCommand, changeGroupMembership, addLogEntry, appendEntriesRequest,
          requestVoteResponse, appendEntriesResponse, requestVoteRequest,
          hae, hrv, hnone]

/-- Witness for C10 on an empty engine and the nonexistent group 42. -/
theorem unknown_group_crashes_witness :
    submitCommand (newState 1) 42 [5] = none ∧
    changeGroupMembership (newState 1) 42 = none ∧
    appendEntriesRequest [] (newState 1) c10aeReq 0 = none ∧
    requestVoteResponse (newState 1) c10rvReq { term := 1, voteGranted := true } = none ∧
    appendEntriesResponse [] (newState 1) c10aeReq { term := 1, success := true } = none ∧
    requestVoteRequest (newState 1) c10rvReq 0 = (newState 1, none, [0]) :=
  unknown_group_crashes [] (newState 1) 42 (by decide) [5] 0 c10aeReq c10rvReq
    { term := 1, success := true } { term := 1, voteGranted := true }
    (by decide) (by decide)

/-- `addPendingCall` only touches `pendingCalls`, so the dirty condition and the
group id are unchanged. -/
theorem addPendingCall_preserves (g : Group) (c : PendingCall) :
    dirtyCondition (addPendingCall g c).1 = dirtyCondition g ∧
    (addPendingCall g c).1.groupID = g.groupID := by
  simp only [addPendingCall]
  by_cases h : (resolvePendingCall g c).1 = true
  · rw [if_pos h]
    exact ⟨rfl, rfl⟩
  · rw [if_neg h]
    exact ⟨rfl, rfl⟩

/-- `commitEntries` only touches `leaderCommitIndex`/`commitIndex`, so the dirty
condition and the group id are unchanged on every successful path. -/
theorem commitEntries_preserves (log : List LogEntry) (g : Group) (lci : Int)
    (g' : Group) (evs : List Event)
    (h : commitEntries log g lci = some (g', evs)) :
    dirtyCondition g' = dirtyCondition g ∧ g'.groupID = g.groupID := by
  unfold commitEntries at h
  split at h
  · injection h with h
    injection h with h1 h2
    subst h1
    exact ⟨rfl, rfl⟩
  · split at h
    · injection h with h
      injection h with h1 h2
      subst h1
      exact ⟨rfl, rfl⟩
    · simp only [] at h
      split at h
      · exact Option.noConfusion h
      · injection h with h
        injection h with h1 h2
        subst h1
        exact ⟨rfl, rfl⟩

/-- Looking up the key just stored by `updateGroup` returns the stored group. -/
theorem alookup_updateGroup_self (s : EngineState) (k : Int) (g : Group) :
    alookup (updateGroup s k g).groups k = some g :=
  alookup_aupdate_self s.groups k g

/-- `updateGroup` does not touch the dirty set. -/
theorem dirtyGroups_updateGroup (s : EngineState) (k : Int) (g : Group) :
    (updateGroup s k g).dirtyGroups = s.dirtyGroups := rfl

/-- C6 amended: the dirty-set equivalence holds for the group a mutating handler
just stored, on every path that ends by recomputing dirty status —
`requestVoteRequest` on an existing group, `requestVoteResponse` when the
response is not ignored as stale, `appendEntriesRequest` when the request is not
rejected as stale, a successful `addLogEntry` (hence submit_command /
change_group_membership), `becomeCandidate`, and `handleWriteResponse` for each
group it processes: the stored group is in the dirty set iff its election state
differs from the persisted mirror or its pending entries are non-empty.  (It
does NOT hold after `create_group`, which installs the group without recomputing
dirty status — see the counterexample.) -/
theorem dirty_iff_after_mutating_handlers :
    (∀ (s : EngineState) (req : RequestVoteReq) (callId : Nat) (g : Group),
       alookup s.groups req.groupID = some g →
       ∀ g', alookup (requestVoteRequest s req callId).1.groups req.groupID = some g' →
         hasId (requestVoteRequest s req callId).1.dirtyGroups g'.groupID =
           dirtyCondition g') ∧
    (∀ (s s' : EngineState) (req : RequestVoteReq) (resp : RequestVoteResp) (g : Group)
       (evs : List Event),
       alookup s.groups req.groupID = some g →
       ¬ resp.term < g.electionState.currentTerm →
       requestVoteResponse s req resp = some (s', evs) →
       ∀ g', alookup s'.groups req.groupID = some g' →
         hasId s'.dirtyGroups g'.groupID = dirtyCondition g') ∧
    (∀ (log : List LogEntry) (s s' : EngineState) (req : AppendEntriesReq) (callId : Nat)
       (g : Group) (resp : AppendEntriesResp) (ds : List Nat) (evs : List Event),
       alookup s.groups req.groupID = some g →
       ¬ req.term < g.electionState.currentTerm →
       appendEntriesRequest log s req callId = some (s', resp, ds, evs) →
       ∀ g', alookup s'.groups req.groupID = some g' →
         hasId s'.dirtyGroups g'.groupID = dirtyCondition g') ∧
    (∀ (s s' : EngineState) (gid : Int) (t : LogEntryType) (p : List Nat),
       addLogEntry s gid t p = some (s', AddLogResult.ok) →
       ∀ g', alookup s'.groups gid = some g' →
         hasId s'.dirtyGroups g'.groupID = dirtyCondition g') ∧
    (∀ (now rnd : Int) (s s' : EngineState) (g : Group) (evs : List Event),
       becomeCandidate now rnd s g = some (s', evs) →
       ∀ g', alookup s'.groups g.groupID = some g' →
         hasId s'.dirtyGroups g'.groupID = dirtyCondition g') ∧
    (∀ (log : List LogEntry) (s s' : EngineState) (e : Int × GroupPersistInfo)
       (evs : List Event) (ds : List Nat),
       handleWriteResponseGroup log s e = some (s', evs, ds) →
       ∀ g', alookup s'.groups e.1 = some g' →
         hasId s'.dirtyGroups g'.groupID = dirtyCondition g') := by
  refine ⟨?_, ?_, ?_, ?_, ?_, ?_⟩
  · intro s req callId g hg g' hg'
    unfold requestVoteRequest at hg' ⊢
    rw [hg] at hg' ⊢
    exact post_mutate_dirty s req.groupID _ g' hg'
  · intro s s' req resp g evs hg hterm hsome g' hg'
    unfold requestVoteResponse at hsome
    rw [hg] at hsome
    simp only [] at hsome
    rw [if_neg hterm] at hsome
    split at hsome
    · exact Option.noConfusion hsome
    · split at hsome
      · exact Option.noConfusion hsome
      · injection hsome with hsome
        injection hsome with h1 h2
        subst h1
        exact post_mutate_dirty s req.groupID _ g' hg'
  · intro log s s' req callId g resp ds evs hg hterm hsome g' hg'
    unfold appendEntriesRequest at hsome
    rw [hg] at hsome
    simp only [] at hsome
    rw [if_neg hterm] at hsome
    split at hsome
    · exact Option.noConfusion hsome
    · rename_i g4 evs4 heq
      injection hsome with hsome
      injection hsome with h1 hrest
      subst h1
      rw [alookup_updateGroup_self] at hg'
      injection hg' with hg'
      subst hg'
      rw [dirtyGroups_updateGroup]
      obtain ⟨hd1, hg1⟩ := commitEntries_preserves _ _ _ _ _ heq
      rw [hg1, (addPendingCall_preserves _ _).2, hd1, (addPendingCall_preserves _ _).1]
      exact (updateDirtyStatus_hasId _ _).1
  · intro s s' gid t p h g' hg'
    unfold addLogEntry at h
    rcases hl : alookup s.groups gid with _ | g
    · rw [hl] at h; simp at h
    · rw [hl] at h
      simp only [] at h
      by_cases hr : g.role = Role.leader
      · rw [if_neg (not_not_intro hr)] at h
        injection h with h
        injection h with h1 h2
        subst h1
        exact post_mutate_dirty s gid _ g' hg'
      · rw [if_pos hr] at h
        injection h with h
        injection h with h1 h2
        exact AddLogResult.noConfusion h2
  · intro now rnd s s' g evs hsome g' hg'
    unfold becomeCandidate at hsome
    split at hsome
    · exact Option.noConfusion hsome
    · simp only [] at hsome
      split at hsome
      · injection hsome with hsome
        injection hsome with h1 h2
        subst h1
        exact post_mutate_dirty s _ _ g' hg'
      · exact Option.noConfusion hsome
  · intro log s s' e evs ds hsome g' hg'
    unfold handleWriteResponseGroup at hsome
    split at hsome
    · exact Option.noConfusion hsome
    · simp only [] at hsome
      split at hsome
      · exact Option.noConfusion hsome
      · injection hsome with hsome
        injection hsome with h1 h2
        subst h1
        exact post_mutate_dirty s e.1 _ g' hg'

/-- Witness for C6's amended claim: all six handler paths at concrete inputs. -/
theorem dirty_iff_after_mutating_handlers_witness :
    (alookup (requestVoteRequest c6vState c6vReq 3).1.groups 1 = some c6vGroupAfter ∧
     hasId (requestVoteRequest c6vState c6vReq 3).1.dirtyGroups c6vGroupAfter.groupID =
       dirtyCondition c6vGroupAfter) ∧
    (requestVoteResponse c6rState c6rReq c6rResp =
       some (c6rStateAfter, [Event.leaderElection 1 1]) ∧
     alookup c6rStateAfter.groups 1 = some c6rGroupAfter ∧
     hasId c6rStateAfter.dirtyGroups c6rGroupAfter.groupID = dirtyCondition c6rGroupAfter) ∧
    (appendEntriesRequest [] c6aState c6aReq 4 =
       some (c6aStateAfter, { term := 0, success := true }, [], []) ∧
     alookup c6aStateAfter.groups 1 = some c6aGroupAfter ∧
     hasId c6aStateAfter.dirtyGroups c6aGroupAfter.groupID = dirtyCondition c6aGroupAfter) ∧
    (addLogEntry c6lState 1 LogEntryType.command [9] = some (c6lStateAfter, AddLogResult.ok) ∧
     alookup c6lStateAfter.groups 1 = some c6lGroupAfter ∧
     hasId c6lStateAfter.dirtyGroups c6lGroupAfter.groupID = dirtyCondition c6lGroupAfter) ∧
    (becomeCandidate 1 1 c6vState c6group = some (c6bStateAfter, []) ∧
     alookup c6bStateAfter.groups 1 = some c6bGroupAfter ∧
     hasId c6bStateAfter.dirtyGroups c6bGroupAfter.groupID = dirtyCondition c6bGroupAfter) ∧
    (handleWriteResponseGroup [] c6wState c6wInfo = some (c6wStateAfter, [], [8, 8]) ∧
     alookup c6wStateAfter.groups 1 = some c6wGroupAfter ∧
     hasId c6wStateAfter.dirtyGroups c6wGroupAfter.groupID = dirtyCondition c6wGroupAfter) :=
  ⟨⟨by decide,
    dirty_iff_after_mutating_handlers.1 c6vState c6vReq 3 c6group (by decide)
      c6vGroupAfter (by decide)⟩,
   ⟨by decide, by decide,
    dirty_iff_after_mutating_handlers.2.1 c6rState c6rStateAfter c6rReq c6rResp c6rGroup
      [Event.leaderElection 1 1] (by decide) (by decide) (by decide)
      c6rGroupAfter (by decide)⟩,
   ⟨by decide, by decide,
    dirty_iff_after_mutating_handlers.2.2.1 [] c6aState c6aStateAfter c6aReq 4 c6aGroup
      { term := 0, success := true } [] [] (by decide) (by decide) (by decide)
      c6aGroupAfter (by decide)⟩,
   ⟨by decide, by decide,
    dirty_iff_after_mutating_handlers.2.2.2.1 c6lState c6lStateAfter 1 LogEntryType.command
      [9] (by decide) c6lGroupAfter (by decide)⟩,
   ⟨by decide, by decide,
    dirty_iff_after_mutating_handlers.2.2.2.2.1 1 1 c6vState c6bStateAfter c6group []
      (by decide) c6bGroupAfter (by decide)⟩,
   ⟨by decide, by decide,
    dirty_iff_after_mutating_handlers.2.2.2.2.2 [] c6wState c6wStateAfter c6wInfo [] [8, 8]
      (by decide) c6wGroupAfter (by decide)⟩⟩

theorem group_erase_pending (g : Group) (h : g.pendingEntries = []) :
    { g with pendingEntries := ([] : List LogEntry) } = g := by
  rw [← h]

theorem ite_isEmpty_self (l : List LogEntry) :
    (if l.isEmpty then ([] : List LogEntry) else l) = l := by
  cases l <;> simp

theorem ite_erase_pending (g : Group) :
    (if g.pendingEntries.isEmpty then g else { g with pendingEntries := [] }) =
      { g with pendingEntries := [] } := by
  by_cases h : g.pendingEntries.isEmpty = true
  · rw [if_pos h]
    exact (group_erase_pending g (List.isEmpty_iff.mp h)).symm
  · rw [if_neg h]

theorem writeReadyLoop_cons_fst (s : EngineState) (gid0 : Int) (rest : List Int)
    (g0 : Group) (hl : alookup s.groups gid0 = some g0) :
    (writeReadyLoop s (gid0 :: rest)).1 =
      (writeReadyLoop (updateGroup s gid0 { g0 with pendingEntries := [] }) rest).1 := by
  simp only [writeReadyLoop, hl, ite_isEmpty_self, ite_erase_pending]

theorem writeReadyLoop_cons_snd (s : EngineState) (gid0 : Int) (rest : List Int)
    (g0 : Group) (hl : alookup s.groups gid0 = some g0) :
    (writeReadyLoop s (gid0 :: rest)).2 =
      (gid0, packagedRequest g0) ::
        (writeReadyLoop (updateGroup s gid0 { g0 with pendingEntries := [] }) rest).2 := by
  simp only [writeReadyLoop, hl, ite_isEmpty_self, ite_erase_pending, packagedRequest]

/-- Specification of the dirty-set iteration of `handleWriteReady`: one request
per listed group carrying the packaged election state and entries, pending
entries drained afterwards, all other groups untouched. -/
theorem writeReadyLoop_spec (ids : List Int) (s : EngineState)
    (hwf : ∀ gid ∈ ids, (alookup s.groups gid).isSome = true)
    (hnd : ids.Nodup) :
    ((writeReadyLoop s ids).2.map Prod.fst = ids) ∧
    (∀ gid g, gid ∈ ids → alookup s.groups gid = some g →
       alookup (writeReadyLoop s ids).2 gid = some (packagedRequest g) ∧
       alookup (writeReadyLoop s ids).1.groups gid = some { g with pendingEntries := [] }) ∧
    (∀ gid, gid ∉ ids →
       alookup (writeReadyLoop s ids).1.groups gid = alookup s.groups gid) := by
  induction ids generalizing s with
  | nil =>
    refine ⟨rfl, ?_, ?_⟩
    · intro gid g hmem _
      simp at hmem
    · intro gid _
      rfl
  | cons gid0 rest ih =>
    rw [List.nodup_cons] at hnd
    obtain ⟨hni, hndr⟩ := hnd
    have hg0 := hwf gid0 (List.mem_cons_self gid0 rest)
    rcases hl : alookup s.groups gid0 with _ | g0
    · rw [hl] at hg0
      simp at hg0
    · have hlrest : ∀ id ∈ rest,
          alookup (updateGroup s gid0 { g0 with pendingEntries := [] }).groups id =
            alookup s.groups id := by
        intro id hid
        exact alookup_aupdate_ne s.groups gid0 id _ (fun he => hni (he ▸ hid))
      have hwf2 : ∀ id ∈ rest,
          (alookup (updateGroup s gid0 { g0 with pendingEntries := [] }).groups id).isSome
            = true := by
        intro id hid
        rw [hlrest id hid]
        exact hwf id (List.mem_cons_of_mem _ hid)
      obtain ⟨ihA, ihB, ihC⟩ := ih (updateGroup s gid0 { g0 with pendingEntries := [] }) hwf2 hndr
      refine ⟨?_, ?_, ?_⟩
      · rw [writeReadyLoop_cons_snd s gid0 rest g0 hl, List.map_cons, ihA]
      · intro gid g hmem hg
        rcases List.mem_cons.mp hmem with he | hm
        · subst he
          rw [hl] at hg
          injection hg with hg
          subst hg
          constructor
          · rw [writeReadyLoop_cons_snd s gid rest _ hl]
            simp [alookup]
          · rw [writeReadyLoop_cons_fst s gid rest _ hl, ihC gid hni]
            exact alookup_aupdate_self s.groups gid _
        · have hne : gid ≠ gid0 := fun he => hni (he ▸ hm)
          have hg2 : alookup (updateGroup s gid0 { g0 with pendingEntries := [] }).groups gid
              = some g := by
            rw [hlrest gid hm]
            exact hg
          obtain ⟨hb1, hb2⟩ := ihB gid g hm hg2
          constructor
          · rw [writeReadyLoop_cons_snd s gid0 rest g0 hl]
            simpa [alookup, Ne.symm hne] using hb1
          · rw [writeReadyLoop_cons_fst s gid0 rest g0 hl]
            exact hb2
      · intro gid hnm
        have hne : gid ≠ gid0 := fun he => hnm (he ▸ List.mem_cons_self gid0 rest)
        have hnr : gid ∉ rest := fun hm => hnm (List.mem_cons_of_mem _ hm)
        rw [writeReadyLoop_cons_fst s gid0 rest g0 hl, ihC gid hnr]
        exact alookup_aupdate_ne s.groups gid0 gid _ hne

/-- C8: the event loop offers the write-ready handshake iff the dirty set is
non-empty, and on the handshake `handleWriteReady` builds exactly one
`WriteRequest` with one entry per dirty group; that entry carries a copy of the
group's election state exactly when it differs from the persisted one
(`packagedRequest`), carries the group's pending entries, and afterwards the
group's pending-entries list is empty.  (The hypotheses are the Go map
invariants: dirty ids are unique and reference installed groups.) -/
theorem handleWriteReady_packaging (s : EngineState)
    (hwf : ∀ gid ∈ s.dirtyGroups, (alookup s.groups gid).isSome = true)
    (hnd : s.dirtyGroups.Nodup) :
    (writeReadySelectable s = true ↔ s.dirtyGroups ≠ []) ∧
    ((handleWriteReady s).2.groups.map Prod.fst = s.dirtyGroups) ∧
    (∀ gid g, gid ∈ s.dirtyGroups → alookup s.groups gid = some g →
       alookup (handleWriteReady s).2.groups gid = some (packagedRequest g) ∧
       alookup (handleWriteReady s).1.groups gid = some { g with pendingEntries := [] }) := by
  obtain ⟨hA, hB, _⟩ := writeReadyLoop_spec s.dirtyGroups s hwf hnd
  refine ⟨?_, hA, hB⟩
  unfold writeReadySelectable
  constructor
  · intro hsel
    have := of_decide_eq_true hsel
    intro hnil
    rw [hnil] at this
    simp at this
  · intro hne
    apply decide_eq_true
    cases hl : s.dirtyGroups with
    | nil => exact absurd hl hne
    | cons x xs => simp

/-- Witness for C8 at a state with a single dirty group carrying one pending
entry and an unpersisted election state. -/
theorem handleWriteReady_packaging_witness :
    ((∀ gid ∈ c8state.dirtyGroups, (alookup c8state.groups gid).isSome = true) ∧
      c8state.dirtyGroups.Nodup) ∧
    ((writeReadySelectable c8state = true ↔ c8state.dirtyGroups ≠ []) ∧
     ((handleWriteReady c8state).2.groups.map Prod.fst = c8state.dirtyGroups) ∧
     (∀ gid g, gid ∈ c8state.dirtyGroups → alookup c8state.groups gid = some g →
        alookup (handleWriteReady c8state).2.groups gid = some (packagedRequest g) ∧
        alookup (handleWriteReady c8state).1.groups gid =
          some { g with pendingEntries := [] })) :=
  ⟨⟨by decide, by decide⟩, handleWriteReady_packaging c8state (by decide) (by decide)⟩

/-- C9 amended: with `Transport.Listen` outcome made explicit, `NewMultiRaft`
succeeds exactly when node_id ≠ 0, a Transport is present, both election timeouts
are NON-ZERO (negative values are accepted), `min ≤ max`, and Listen succeeds;
and whenever it succeeds with a nil Clock the resulting clock is the real
(wall-time) clock. -/
theorem newMultiRaft_validation (nodeID : Int) (c : MRConfig) (listenOk : Bool) :
    ((newMultiRaft nodeID c listenOk).isSome = true ↔
      (nodeID ≠ 0 ∧ c.hasTransport = true ∧ c.electionTimeoutMin ≠ 0 ∧
       c.electionTimeoutMax ≠ 0 ∧ c.electionTimeoutMin ≤ c.electionTimeoutMax ∧
       listenOk = true)) ∧
    (∀ h, newMultiRaft nodeID c listenOk = some h → c.clock = none →
       h.clock = ClockModel.real) := by
  unfold newMultiRaft configValidate isSet
  by_cases h1 : nodeID = 0
  · constructor
    · simp [h1]
    · intro h hsome _
      simp [h1] at hsome
  · by_cases h2 : c.hasTransport = false
    · constructor
      · simp [h1, h2]
      · intro h hsome _
        simp [h1, h2] at hsome
    · simp only [Bool.not_eq_false] at h2
      by_cases h3a : c.electionTimeoutMin = 0
      · constructor
        · simp [h1, h2, h3a]
        · intro h hsome _
          simp [h1, h2, h3a] at hsome
      · by_cases h3b : c.electionTimeoutMax = 0
        · constructor
          · simp [h1, h2, h3a, h3b]
          · intro h hsome _
            simp [h1, h2, h3a, h3b] at hsome
        · by_cases h4 : c.electionTimeoutMax < c.electionTimeoutMin
          · have h5 : ¬ c.electionTimeoutMin ≤ c.electionTimeoutMax := not_le.mpr h4
            constructor
            · simp [h1, h2, h3a, h3b, h4, h5]
            · intro h hsome _
              simp [h1, h2, h3a, h3b, h4] at hsome
          · have h5 : c.electionTimeoutMin ≤ c.electionTimeoutMax := not_lt.mp h4
            cases listenOk
            · constructor
              · simp [h1, h2, h3a, h3b, h4]
              · intro h hsome _
                simp [h1, h2, h3a, h3b, h4] at hsome
            · constructor
              · simp [h1, h2, h3a, h3b, h4, h5]
              · intro h hsome hclock
                simp [h1, h2, h3a, h3b, h4] at hsome
                rw [← hsome, hclock]
                rfl

/-- Witness for C9's amended claim: a valid config with a nil clock yields a
handle whose clock is the real clock. -/
theorem newMultiRaft_validation_witness :
    (newMultiRaft 1 c9goodConfig true).isSome = true ∧
    c9handle.clock = ClockModel.real :=
  ⟨(newMultiRaft_validation 1 c9goodConfig true).1.mpr (by decide),
   (newMultiRaft_validation 1 c9goodConfig true).2 c9handle (by decide) (by decide)⟩

end MultiRaft
